import Mathlib

/-!
Shallow embedding of the twilio-sms-chat server, centred on the SQLite-backed
variant (`src/index.js`): the phone normalizer, the message store operations
(`insertMessage`, `listContacts`, `getThread`), the inbound-webhook and send
handlers, the media-URL extraction of the in-memory variant
(`src/unnamed/part_001`), and the bounded in-memory buffer described by the
spec.  The SQLite table is modelled as a list of rows in rowid (insertion)
order; `INSERT OR REPLACE` deletes the row with the same primary key and
appends the new row; `ORDER BY at ASC` is the stable sort by the `at` column
under the byte order of the default BINARY collation.
-/

/-- JavaScript runtime values as they occur in `req.body` / `req.query`
fields and in `process.env` (an absent field is `undef`). -/
inductive JSVal where
  | null
  | undef
  | str (s : String)
  | num (n : Int)
  | bool (b : Bool)
deriving DecidableEq

/-- JavaScript truthiness: `null`, `undefined`, `""`, `0` and `false` are
falsy, everything else is truthy. -/
def JSVal.truthy : JSVal → Bool
  | JSVal.null => false
  | JSVal.undef => false
  | JSVal.str s => s != ""
  | JSVal.num n => n != 0
  | JSVal.bool b => b

/-- JavaScript `.toString()` / string coercion of a value. -/
def JSVal.toStr : JSVal → String
  | JSVal.null => "null"
  | JSVal.undef => "undefined"
  | JSVal.str s => s
  | JSVal.num n => toString n
  | JSVal.bool b => if b then "true" else "false"

/-- The JavaScript `a || b` operator: `a` when truthy, else `b`. -/
def jsOr (a b : JSVal) : JSVal := if a.truthy then a else b

/-- JavaScript `String.prototype.trim()`: drop leading and trailing
whitespace, modelled on the character list of the string. -/
def jsTrim (s : String) : String :=
  ⟨((s.data.dropWhile Char.isWhitespace).reverse.dropWhile Char.isWhitespace).reverse⟩

/-- The phone normalizer of `src/index.js`:
`function normalizePhone(p) { return (p || "").toString().trim(); }`. -/
def normalizePhone (p : JSVal) : String := jsTrim (jsOr p (JSVal.str "")).toStr

/-- The `direction` column: `CHECK(direction IN ('inbound','outbound'))`. -/
inductive Direction where
  | inbound
  | outbound
deriving DecidableEq

/-- One row of the `messages` table of `src/index.js` (column names of the
SQLite schema; the JS objects expose `from_phone`/`to_phone` as
`from`/`to`).  `at` is the ISO-8601 timestamp string. -/
structure Message where
  id : String
  from_phone : String
  to_phone : String
  body : String
  direction : Direction
  «at» : String
deriving DecidableEq

/-- The store of `src/index.js` is the `messages` table, modelled as the
list of rows in rowid (insertion) order. -/
abbrev Store := List Message

/-- `insertMessage` of `src/index.js`: `INSERT OR REPLACE INTO messages`.
`INSERT OR REPLACE` deletes any row with the same primary key `id` and
inserts the new row, which receives a fresh (largest) rowid. -/
def insertMessage (db : Store) (msg : Message) : Store :=
  db.filter (fun r => r.id != msg.id) ++ [msg]

/-- Comparison of rows by the `at` column, as `ORDER BY at ASC` compares
TEXT values under the BINARY collation (byte order; here the character
list order). -/
def atLe (a b : Message) : Prop := a.«at».data ≤ b.«at».data

instance : DecidableRel atLe :=
  fun a b => (inferInstance : Decidable (a.«at».data ≤ b.«at».data))

instance : IsTotal Message atLe := ⟨fun a b => le_total a.«at».data b.«at».data⟩

instance : IsTrans Message atLe := ⟨fun _ _ _ => le_trans⟩

/-- Lexicographic (byte) order on phone strings, as used by
`ORDER BY phone ASC`. -/
def phoneLe (x y : String) : Prop := x.data ≤ y.data

/-- Strict lexicographic (byte) order on phone strings. -/
def phoneLt (x y : String) : Prop := x.data < y.data

instance : DecidableRel phoneLe :=
  fun x y => (inferInstance : Decidable (x.data ≤ y.data))

instance : IsTotal String phoneLe := ⟨fun x y => le_total x.data y.data⟩

instance : IsTrans String phoneLe := ⟨fun _ _ _ => le_trans⟩

/-- `listContacts` of `src/index.js`:
`SELECT DISTINCT from_phone FROM messages WHERE direction='inbound'
UNION SELECT DISTINCT to_phone FROM messages WHERE direction='outbound'
ORDER BY phone ASC`.  `UNION` is the deduplicated union, then sorted. -/
def listContacts (db : Store) : List String :=
  List.insertionSort phoneLe
    (((db.filter (fun m => m.direction == Direction.inbound)).map Message.from_phone ++
      (db.filter (fun m => m.direction == Direction.outbound)).map Message.to_phone).dedup)

/-- `getThread` of `src/index.js`: normalize the input, return `[]` when it
is empty, otherwise
`SELECT ... WHERE from_phone = ? OR to_phone = ? ORDER BY at ASC`,
with ties in `at` left in rowid (insertion) order. -/
def getThread (db : Store) (phone : JSVal) : List Message :=
  if normalizePhone phone = "" then []
  else
    List.insertionSort atLe
      (db.filter (fun m =>
        m.from_phone == normalizePhone phone || m.to_phone == normalizePhone phone))

/-- Outcome of an awaited storage write (`db.run` resolving or rejecting). -/
inductive StorageOutcome where
  | ok
  | failure
deriving DecidableEq

/-- An HTTP response as produced by the express handlers. -/
structure HttpResponse where
  status : Nat
  contentType : String
  body : String
deriving DecidableEq

/-- TwiML message text of the success branch of `app.post("/sms")`. -/
def smsAckOk : String := "Got it ✅ You can continue texting here."

/-- TwiML message text of the catch branch of `app.post("/sms")`. -/
def smsAckFail : String := "Server error. Please try later."

/-- The fields of a Twilio inbound-webhook form body read by
`app.post("/sms")` of `src/index.js` (an absent field is `undef`). -/
structure SmsPayload where
  From : JSVal
  To : JSVal
  Body : JSVal
deriving DecidableEq

/-- The record built by `app.post("/sms")` of `src/index.js`:
`from`/`to` normalized, `body: Body || ""`, a fresh id and the current
ISO timestamp (`newId` and `now` stand for `"in_" + Date.now() + ...` and
`new Date().toISOString()`). -/
def inboundMessage (p : SmsPayload) (newId now : String) : Message :=
  { id := newId
    from_phone := normalizePhone p.From
    to_phone := normalizePhone p.To
    body := (jsOr p.Body (JSVal.str "")).toStr
    direction := Direction.inbound
    «at» := now }

/-- `app.post("/sms")` of `src/index.js`: try to insert the inbound record
and answer with TwiML; on a storage failure the catch branch still answers
with TwiML and status 200.  The second component is the list of records
committed to the store by the request. -/
def smsHandler (p : SmsPayload) (st : StorageOutcome) (newId now : String) :
    HttpResponse × List Message :=
  match st with
  | StorageOutcome.ok =>
    ({ status := 200, contentType := "text/xml", body := smsAckOk },
     [inboundMessage p newId now])
  | StorageOutcome.failure =>
    ({ status := 200, contentType := "text/xml", body := smsAckFail }, [])

/-- The three provider environment variables read by `app.post("/api/send")`. -/
structure TwilioEnv where
  accountSid : JSVal
  authToken : JSVal
  phoneNumber : JSVal
deriving DecidableEq

/-- The configuration check of `app.post("/api/send")`:
`if (!TWILIO_ACCOUNT_SID || !TWILIO_AUTH_TOKEN || !TWILIO_PHONE_NUMBER)`. -/
def envOk (e : TwilioEnv) : Bool :=
  e.accountSid.truthy && e.authToken.truthy && e.phoneNumber.truthy

/-- The request body of `app.post("/api/send")`.  The handler reads only
`to` and `body`; a media field, if sent by a client, is ignored. -/
structure SendBody where
  «to» : JSVal
  body : JSVal
  mediaUrl : JSVal
deriving DecidableEq

/-- Outcome of the awaited `client.messages.create` call. -/
inductive SendOutcome where
  | success (sid : JSVal)
  | failure (err : String)
deriving DecidableEq

/-- Whether the provider call resolved. -/
def SendOutcome.isSuccess : SendOutcome → Bool
  | SendOutcome.success _ => true
  | SendOutcome.failure _ => false

/-- The response of `app.post("/api/send")`: 400 validation errors, the
500 missing-env response, the catch-branch 500, or the 200 `{ok, sid}`. -/
inductive SendResult where
  | validationErr (msg : String)
  | configErr
  | sendErr (msg : String)
  | sent (sid : JSVal)
deriving DecidableEq

/-- `app.post("/api/send")` of `src/index.js`.  `outcome` is the result of
the awaited provider call, `st` the result of the awaited `insertMessage`
(a rejection of either is caught by the catch branch); `now` stands for
`new Date().toISOString()` and `fallbackId` for `"out_" + Date.now()`.
The second component is the list of records committed to the store. -/
def sendHandler (env : TwilioEnv) (req : SendBody) (outcome : SendOutcome)
    (st : StorageOutcome) (now fallbackId : String) : SendResult × List Message :=
  if normalizePhone req.«to» = "" then (SendResult.validationErr "Missing \x27to\x27", [])
  else if (jsOr req.body (JSVal.str "")).toStr = "" then
    (SendResult.validationErr "Missing \x27body\x27", [])
  else if envOk env = false then (SendResult.configErr, [])
  else
    match outcome with
    | SendOutcome.failure e => (SendResult.sendErr e, [])
    | SendOutcome.success sid =>
      match st with
      | StorageOutcome.failure => (SendResult.sendErr "insert rejected", [])
      | StorageOutcome.ok =>
        (SendResult.sent sid,
         [{ id := (jsOr sid (JSVal.str fallbackId)).toStr
            from_phone := normalizePhone env.phoneNumber
            to_phone := normalizePhone req.«to»
            body := (jsOr req.body (JSVal.str "")).toStr
            direction := Direction.outbound
            «at» := now }])

/-- Digits of a numeral to a natural number. -/
def digitsToNat (ds : List Char) : Nat :=
  ds.foldl (fun n c => n * 10 + (c.toNat - 48)) 0

/-- JavaScript `parseInt(s, 10)`: skip leading whitespace, an optional
sign, then the longest run of decimal digits; `none` models `NaN`. -/
def parseIntJS (s : String) : Option Int :=
  let t := s.data.dropWhile Char.isWhitespace
  let signAndRest : Int × List Char :=
    match t with
    | [] => (1, [])
    | c :: cs => if c = '-' then (-1, cs) else if c = '+' then (1, cs) else (1, t)
  let ds := signAndRest.2.takeWhile Char.isDigit
  if ds = [] then none else some (signAndRest.1 * digitsToNat ds)

/-- The fields of the inbound-webhook body read by `app.post("/sms")` of
`src/unnamed/part_001`; `mediaField i` models the indexed form field
`req.body["MediaUrl" + i]` (absent fields are `undef`). -/
structure MediaPayload where
  From : JSVal
  Body : JSVal
  NumMedia : JSVal
  mediaField : Nat → JSVal

/-- The declared media count of `src/unnamed/part_001`:
`parseInt(req.body.NumMedia || "0", 10)`; a `NaN` or negative count makes
the extraction loop run zero times. -/
def numMediaOf (p : MediaPayload) : Nat :=
  match parseIntJS (jsOr p.NumMedia (JSVal.str "0")).toStr with
  | some n => n.toNat
  | none => 0

/-- The extraction loop of `src/unnamed/part_001`:
`for (let i = 0; i < numMedia; i++) mediaUrls.push(req.body["MediaUrl"+i])`.
Each indexed field is pushed as-is, `undefined` included. -/
def extractMediaUrls (p : MediaPayload) : List JSVal :=
  (List.range (numMediaOf p)).map p.mediaField

/-- A record of the in-memory `messages` array of `src/unnamed/part_001`:
`{ from, body, mediaUrls, direction: "inbound", at }`, with `from` and
`body` stored as the raw JS values. -/
structure MediaMessage where
  from_field : JSVal
  body : JSVal
  mediaUrls : List JSVal
  direction : Direction
  «at» : String
deriving DecidableEq

/-- The record pushed by `app.post("/sms")` of `src/unnamed/part_001`. -/
def inboundMediaMessage (p : MediaPayload) (now : String) : MediaMessage :=
  { from_field := p.From
    body := jsOr p.Body (JSVal.str "")
    mediaUrls := extractMediaUrls p
    direction := Direction.inbound
    «at» := now }

/-- `app.post("/sms")` of `src/unnamed/part_001`: push the record onto the
in-memory array (an infallible push) and answer `<Response/>`. -/
def smsMediaHandler (p : MediaPayload) (now : String) :
    HttpResponse × List MediaMessage :=
  ({ status := 200, contentType := "text/xml", body := "<Response/>" },
   [inboundMediaMessage p now])

/-- Modelled from the spec: the repository has no bounded store (the
in-memory `messages` arrays of the unnamed variants grow without bound),
so this is the bounded in-memory buffer of §3/§4.2 of the spec: an
idempotent insert by `id`, followed by eviction of the single oldest
record (the front of the insertion-ordered list) whenever the capacity
would otherwise be exceeded. -/
def boundedInsert (cap : Nat) (db : Store) (msg : Message) : Store :=
  let d := db.filter (fun r => r.id != msg.id) ++ [msg]
  d.drop (d.length - cap)

/-- Modelled from the spec: inserting a sequence of records, one at a
time, into the bounded buffer. -/
def boundedFill (cap : Nat) (db : Store) (msgs : List Message) : Store :=
  msgs.foldl (boundedInsert cap) db

theorem string_data_inj {x y : String} (h : x.data = y.data) : x = y := by
  cases x; cases y; cases h; rfl

/-- Membership in the contact list: exactly the `from` of an inbound row or
the `to` of an outbound row. -/
theorem mem_listContacts (db : Store) (x : String) :
    x ∈ listContacts db ↔
      ∃ m, m ∈ db ∧
        ((m.direction = Direction.inbound ∧ m.from_phone = x) ∨
         (m.direction = Direction.outbound ∧ m.to_phone = x)) := by
  unfold listContacts
  simp only [List.mem_insertionSort, List.mem_dedup, List.mem_append, List.mem_map,
    List.mem_filter, beq_iff_eq]
  constructor
  · rintro (⟨m, ⟨hm, hd⟩, hx⟩ | ⟨m, ⟨hm, hd⟩, hx⟩)
    · exact ⟨m, hm, Or.inl ⟨hd, hx⟩⟩
    · exact ⟨m, hm, Or.inr ⟨hd, hx⟩⟩
  · rintro ⟨m, hm, ⟨hd, hx⟩ | ⟨hd, hx⟩⟩
    · exact Or.inl ⟨m, ⟨hm, hd⟩, hx⟩
    · exact Or.inr ⟨m, ⟨hm, hd⟩, hx⟩

/-- A double upsert with a shared id reduces to a single surviving row. -/
theorem insertMessage_twice (db : Store) (m1 m2 : Message) (h : m1.id = m2.id) :
    insertMessage (insertMessage db m1) m2 =
      (db.filter (fun r => r.id != m1.id)).filter (fun r => r.id != m2.id) ++ [m2] := by
  simp [insertMessage, List.filter_append, h]

/-- C1: idempotent upsert — after `put(m1); put(m2)` with `m1.id = m2.id`,
the store holds exactly one record with that id, that record is `m2`, and
no duplicate was created (the row count grew by at most one). -/
theorem c1_idempotent_upsert (db : Store) (m1 m2 : Message) (h : m1.id = m2.id) :
    (insertMessage (insertMessage db m1) m2).filter (fun r => r.id == m2.id) = [m2] ∧
    (insertMessage (insertMessage db m1) m2).length ≤ db.length + 1 := by
  rw [insertMessage_twice db m1 m2 h]
  constructor
  · rw [List.filter_append]
    have h1 :
        ((db.filter (fun r => r.id != m1.id)).filter (fun r => r.id != m2.id)).filter
          (fun r => r.id == m2.id) = [] := by
      rw [List.filter_eq_nil_iff]
      intro a ha
      have h2 := (List.mem_filter.mp ha).2
      simp only [bne_iff_ne, ne_eq, decide_eq_true_eq] at h2
      simp [h2]
    rw [h1]
    simp
  · have h3 := List.length_filter_le (fun r => r.id != m2.id)
      (db.filter (fun r => r.id != m1.id))
    have h4 := List.length_filter_le (fun r => r.id != m1.id) db
    simp only [List.length_append, List.length_cons, List.length_nil]
    omega

/-- Witness for C1 at a concrete store and message pair. -/
theorem c1_witness :
    (insertMessage (insertMessage [⟨"z", "+7", "+8", "q", Direction.outbound, "2019"⟩]
        ⟨"a", "+1", "+2", "first", Direction.inbound, "2020"⟩)
        ⟨"a", "+3", "+4", "second", Direction.inbound, "2021"⟩).filter
      (fun r => r.id == "a") = [⟨"a", "+3", "+4", "second", Direction.inbound, "2021"⟩] ∧
    (insertMessage (insertMessage [⟨"z", "+7", "+8", "q", Direction.outbound, "2019"⟩]
        ⟨"a", "+1", "+2", "first", Direction.inbound, "2020"⟩)
        ⟨"a", "+3", "+4", "second", Direction.inbound, "2021"⟩).length ≤
      ([⟨"z", "+7", "+8", "q", Direction.outbound, "2019"⟩] : Store).length + 1 :=
  c1_idempotent_upsert [⟨"z", "+7", "+8", "q", Direction.outbound, "2019"⟩]
    ⟨"a", "+1", "+2", "first", Direction.inbound, "2020"⟩
    ⟨"a", "+3", "+4", "second", Direction.inbound, "2021"⟩ (by decide)

/-- C3: contact derivation — a phone is listed exactly when it is the
`from` of some inbound record or the `to` of some outbound record (so the
system's own side of its own messages never contributes itself), and the
list is strictly sorted in ascending lexicographic (byte) order, hence
deduplicated and deterministic in the store contents. -/
theorem c3_contact_derivation (db : Store) (x : String) :
    (x ∈ listContacts db ↔
      ∃ m, m ∈ db ∧
        ((m.direction = Direction.inbound ∧ m.from_phone = x) ∨
         (m.direction = Direction.outbound ∧ m.to_phone = x))) ∧
    (listContacts db).Pairwise phoneLt := by
  refine ⟨mem_listContacts db x, ?_⟩
  have hsorted : (listContacts db).Pairwise phoneLe :=
    List.sorted_insertionSort phoneLe _
  have hperm :
      List.Perm (listContacts db)
        (((db.filter (fun m => m.direction == Direction.inbound)).map Message.from_phone ++
          (db.filter (fun m => m.direction == Direction.outbound)).map Message.to_phone).dedup) :=
    List.perm_insertionSort phoneLe _
  have hnodup : (listContacts db).Nodup := hperm.symm.nodup (List.nodup_dedup _)
  exact hsorted.imp₂
    (fun a b hle hne => lt_of_le_of_ne hle (fun hd => hne (string_data_inj hd))) hnodup

/-- C5: the ingress handler acknowledges every inbound webhook with a
TwiML response and status 200 whatever the storage outcome; a storage
failure is swallowed (no record committed) and still acknowledged. -/
theorem c5_ingress_always_acks (p : SmsPayload) (st : StorageOutcome) (newId now : String) :
    (smsHandler p st newId now).1.status = 200 ∧
    (smsHandler p st newId now).1.contentType = "text/xml" ∧
    (smsHandler p StorageOutcome.failure newId now).1.status = 200 ∧
    (smsHandler p StorageOutcome.failure newId now).2 = [] := by
  cases st <;> exact ⟨rfl, rfl, rfl, rfl⟩

/-- C6 counterexample: the claim maps every non-string input to the empty
string, but the code coerces a truthy non-string with `.toString()`:
`normalizePhone(5)` is `"5"`, not `""`. -/
theorem c6_counterexample :
    ¬ (∀ v : JSVal, (∀ s : String, v ≠ JSVal.str s) → normalizePhone v = "") := by
  intro h
  have h5 := h (JSVal.num 5) (fun s hs => by cases hs)
  exact absurd h5 (by decide)

/-- C6 amended: `normalizePhone` maps `null`, `undefined` and every falsy
input (so also `false`, `0` and `""`) to the empty string, maps a string
to that string trimmed of leading and trailing whitespace, and coerces a
truthy non-string with `.toString()` before trimming; it is total. -/
theorem c6_normalize_contract :
    normalizePhone JSVal.null = "" ∧
    normalizePhone JSVal.undef = "" ∧
    (∀ s : String, normalizePhone (JSVal.str s) = jsTrim s) ∧
    (∀ v : JSVal, v.truthy = false → normalizePhone v = "") ∧
    (∀ v : JSVal, v.truthy = true → normalizePhone v = jsTrim v.toStr) := by
  refine ⟨rfl, rfl, ?_, ?_, ?_⟩
  · intro s
    by_cases hs : s = ""
    · subst hs; rfl
    · simp [normalizePhone, jsOr, JSVal.truthy, JSVal.toStr, hs]
  · intro v hv
    simp [normalizePhone, jsOr, hv, JSVal.toStr, jsTrim]
  · intro v hv
    simp [normalizePhone, jsOr, hv]

/-- Witness for C6 amended at concrete inputs. -/
theorem c6_witness :
    normalizePhone (JSVal.str " +1 555 0100 ") = jsTrim " +1 555 0100 " ∧
    normalizePhone (JSVal.bool false) = "" ∧
    normalizePhone (JSVal.num 5) = jsTrim (JSVal.num 5).toStr :=
  ⟨c6_normalize_contract.2.2.1 " +1 555 0100 ",
   c6_normalize_contract.2.2.2.1 (JSVal.bool false) rfl,
   c6_normalize_contract.2.2.2.2 (JSVal.num 5) rfl⟩

/-- C10: an inbound webhook with an absent `Body` still produces a stored
record with empty body; `from`/`to` are the normalized `From`/`To` (empty
when those are absent, since `normalizePhone undefined = ""`); the handler
commits the record and acknowledges with 200 — it never rejects a payload
for missing fields. -/
theorem c10_inbound_missing_body (F T : JSVal) (newId now : String) :
    (inboundMessage ⟨F, T, JSVal.undef⟩ newId now).body = "" ∧
    (inboundMessage ⟨F, T, JSVal.undef⟩ newId now).from_phone = normalizePhone F ∧
    (inboundMessage ⟨F, T, JSVal.undef⟩ newId now).to_phone = normalizePhone T ∧
    normalizePhone JSVal.undef = "" ∧
    (smsHandler ⟨F, T, JSVal.undef⟩ StorageOutcome.ok newId now).2 =
      [inboundMessage ⟨F, T, JSVal.undef⟩ newId now] ∧
    (smsHandler ⟨F, T, JSVal.undef⟩ StorageOutcome.ok newId now).1.status = 200 :=
  ⟨rfl, rfl, rfl, rfl, rfl, rfl⟩

/-- C2 counterexample: the claim asks for the records whose NORMALIZED
`from`/`to` equals the normalized query, but the SQL compares the stored
columns verbatim: a record stored with the un-normalized `from` `" +1"`
(reachable through the debug seeding route, which does not normalize)
matches under normalization yet is missing from `getThread("+1")`. -/
theorem c2_counterexample :
    ¬ (∀ (db : Store) (phone : JSVal) (m : Message),
        m ∈ db → normalizePhone phone ≠ "" →
        (normalizePhone (JSVal.str m.from_phone) = normalizePhone phone ∨
         normalizePhone (JSVal.str m.to_phone) = normalizePhone phone) →
        m ∈ getThread db phone) := by
  intro h
  have hmem := h [⟨"a", " +1", "+2", "b", Direction.inbound, "2020"⟩] (JSVal.str "+1")
      ⟨"a", " +1", "+2", "b", Direction.inbound, "2020"⟩ (by decide) (by decide)
      (Or.inl (by decide))
  exact absurd hmem (by decide)

/-- C2 amended: for a query that does not normalize to the empty string,
`getThread` returns exactly the stored records whose stored `from_phone`
or `to_phone` column equals the normalized query (records written by the
normal ingress/egress paths store these already normalized), sorted
ascending by the `at` column, and records with equal `at` keep their
insertion (rowid) order: the filtered sublist at each fixed timestamp is
returned unchanged. -/
theorem c2_thread_ordering (db : Store) (phone : JSVal) (h : normalizePhone phone ≠ "") :
    List.Perm (getThread db phone)
      (db.filter (fun m => m.from_phone == normalizePhone phone ||
        m.to_phone == normalizePhone phone)) ∧
    (getThread db phone).Pairwise atLe ∧
    ∀ t : String,
      (getThread db phone).filter (fun m => m.«at» == t) =
        (db.filter (fun m => m.from_phone == normalizePhone phone ||
          m.to_phone == normalizePhone phone)).filter (fun m => m.«at» == t) := by
  have hg : getThread db phone =
      List.insertionSort atLe (db.filter (fun m => m.from_phone == normalizePhone phone ||
        m.to_phone == normalizePhone phone)) := by
    unfold getThread
    rw [if_neg h]
  refine ⟨?_, ?_, ?_⟩
  · rw [hg]
    exact List.perm_insertionSort atLe _
  · rw [hg]
    exact List.sorted_insertionSort atLe _
  · intro t
    rw [hg]
    set M := db.filter (fun m => m.from_phone == normalizePhone phone ||
        m.to_phone == normalizePhone phone) with hM
    have hallt : ∀ a ∈ M.filter (fun m => m.«at» == t), a.«at» = t := by
      intro a ha
      have h2 := (List.mem_filter.mp ha).2
      simpa using h2
    have hpw : (M.filter (fun m => m.«at» == t)).Pairwise atLe := by
      apply List.pairwise_of_forall_mem_list
      intro a ha b hb
      unfold atLe
      rw [hallt a ha, hallt b hb]
    have hstep := List.sublist_insertionSort hpw (List.filter_sublist M)
    have hLf : (M.filter (fun m => m.«at» == t)).filter (fun m => m.«at» == t) =
        M.filter (fun m => m.«at» == t) :=
      List.filter_eq_self.mpr (fun a ha => (List.mem_filter.mp ha).2)
    have hsub2 : (M.filter (fun m => m.«at» == t)).Sublist
        ((List.insertionSort atLe M).filter (fun m => m.«at» == t)) := by
      have h3 := hstep.filter (fun m => m.«at» == t)
      rwa [hLf] at h3
    have hpermf : List.Perm ((List.insertionSort atLe M).filter (fun m => m.«at» == t))
        (M.filter (fun m => m.«at» == t)) :=
      (List.perm_insertionSort atLe M).filter _
    exact (hsub2.eq_of_length hpermf.length_eq.symm).symm

/-- Witness for C2 amended at a concrete store with a timestamp tie. -/
theorem c2_witness :
    List.Perm
      (getThread [⟨"a", "+1", "+2", "b", Direction.inbound, "2020"⟩,
                  ⟨"c", "+2", "+1", "x", Direction.outbound, "2019"⟩] (JSVal.str "+1"))
      (List.filter
        (fun m => m.from_phone == normalizePhone (JSVal.str "+1") ||
                  m.to_phone == normalizePhone (JSVal.str "+1"))
        ([⟨"a", "+1", "+2", "b", Direction.inbound, "2020"⟩,
          ⟨"c", "+2", "+1", "x", Direction.outbound, "2019"⟩] : Store)) ∧
    (getThread [⟨"a", "+1", "+2", "b", Direction.inbound, "2020"⟩,
                ⟨"c", "+2", "+1", "x", Direction.outbound, "2019"⟩]
      (JSVal.str "+1")).Pairwise atLe ∧
    (getThread [⟨"a", "+1", "+2", "b", Direction.inbound, "2020"⟩,
                ⟨"c", "+2", "+1", "x", Direction.outbound, "2019"⟩]
        (JSVal.str "+1")).filter (fun m => m.«at» == "2019") =
      (List.filter
        (fun m => m.from_phone == normalizePhone (JSVal.str "+1") ||
                  m.to_phone == normalizePhone (JSVal.str "+1"))
        ([⟨"a", "+1", "+2", "b", Direction.inbound, "2020"⟩,
          ⟨"c", "+2", "+1", "x", Direction.outbound, "2019"⟩] : Store)).filter
        (fun m => m.«at» == "2019") :=
  ⟨(c2_thread_ordering _ (JSVal.str "+1") (by decide)).1,
   (c2_thread_ordering _ (JSVal.str "+1") (by decide)).2.1,
   (c2_thread_ordering _ (JSVal.str "+1") (by decide)).2.2 "2019"⟩

/-- C9 counterexample: a record with empty `from_phone` is reachable (an
inbound webhook with no `From` field stores `normalizePhone(undefined) =
""`), and `listContacts` has no filter against it, so the empty string
does appear as a contact. -/
theorem c9_counterexample :
    "" ∈ listContacts
      (smsHandler ⟨JSVal.undef, JSVal.undef, JSVal.undef⟩ StorageOutcome.ok
        "in_1" "2020").2 := by
  decide

/-- C9 amended: an input that normalizes to the empty string is treated as
absent by `getThread` (empty result, no error); and the empty string never
appears in `listContacts` PROVIDED every stored record carries a non-empty
contact field for its direction — the store itself does not filter empty
phones, so a record stored with an empty `From` does surface. -/
theorem c9_empty_phone (db : Store) (phone : JSVal) :
    (normalizePhone phone = "" → getThread db phone = []) ∧
    ((∀ m, m ∈ db →
        (m.direction = Direction.inbound → m.from_phone ≠ "") ∧
        (m.direction = Direction.outbound → m.to_phone ≠ "")) →
      "" ∉ listContacts db) := by
  constructor
  · intro h
    simp [getThread, h]
  · intro hdb hmem
    rw [mem_listContacts] at hmem
    obtain ⟨m, hm, hcase⟩ := hmem
    rcases hcase with ⟨hd, hx⟩ | ⟨hd, hx⟩
    · exact (hdb m hm).1 hd hx
    · exact (hdb m hm).2 hd hx

/-- Witness for C9 amended at concrete inputs. -/
theorem c9_witness :
    getThread [] (JSVal.str "   ") = [] ∧
    "" ∉ listContacts [⟨"a", "+1", "+2", "hi", Direction.inbound, "2020"⟩] :=
  ⟨(c9_empty_phone [] (JSVal.str "   ")).1 (by decide),
   (c9_empty_phone [⟨"a", "+1", "+2", "hi", Direction.inbound, "2020"⟩] JSVal.null).2
     (by decide)⟩

/-- C4 counterexample: the claim admits "text or media present" as passing
validation, but the send endpoint accepts no media at all and requires a
non-empty body: a request with a destination and a media URL but empty
text is rejected with a validation error even though the provider send
would succeed, so no record is written where the claim requires one. -/
theorem c4_counterexample :
    ¬ (∀ (env : TwilioEnv) (req : SendBody) (outcome : SendOutcome)
        (st : StorageOutcome) (now fid : String),
        ((sendHandler env req outcome st now fid).2 ≠ []) ↔
          (normalizePhone req.«to» ≠ "" ∧
           ((jsOr req.body (JSVal.str "")).toStr ≠ "" ∨ req.mediaUrl.truthy = true) ∧
           outcome.isSuccess = true)) := by
  intro h
  have h2 := (h ⟨JSVal.str "AC1", JSVal.str "tok", JSVal.str "+19999999999"⟩
      ⟨JSVal.str "+15550100", JSVal.str "", JSVal.str "http://img"⟩
      (SendOutcome.success (JSVal.str "SM1")) StorageOutcome.ok "2020" "out_1").mpr
    ⟨by decide, Or.inr (by decide), rfl⟩
  exact h2 (by decide)

/-- C4 amended: the send endpoint writes a record exactly when the
normalized destination is non-empty, the text body is non-empty (media is
not accepted on this path), the provider configuration is present, the
provider send succeeds, and the storage write itself succeeds; a missing
destination is answered with a 400 validation error and no write, and a
provider transmission failure commits no record. -/
theorem c4_send_atomicity (env : TwilioEnv) (req : SendBody) (outcome : SendOutcome)
    (st : StorageOutcome) (now fid : String) :
    (((sendHandler env req outcome st now fid).2 ≠ []) ↔
      (normalizePhone req.«to» ≠ "" ∧ (jsOr req.body (JSVal.str "")).toStr ≠ "" ∧
       envOk env = true ∧ outcome.isSuccess = true ∧ st = StorageOutcome.ok)) ∧
    (normalizePhone req.«to» = "" →
      sendHandler env req outcome st now fid =
        (SendResult.validationErr "Missing \x27to\x27", [])) ∧
    (outcome.isSuccess = false → (sendHandler env req outcome st now fid).2 = []) := by
  unfold sendHandler
  by_cases h1 : normalizePhone req.«to» = "" <;>
    by_cases h2 : (jsOr req.body (JSVal.str "")).toStr = "" <;>
    by_cases h3 : envOk env = false <;>
    cases outcome <;> cases st <;>
    simp [h1, h2, h3, SendOutcome.isSuccess]

/-- Witness for C4 amended: a fully valid send writes a record, and an
all-whitespace destination is rejected with the validation error. -/
theorem c4_witness :
    (sendHandler ⟨JSVal.str "AC1", JSVal.str "tok", JSVal.str "+19999999999"⟩
        ⟨JSVal.str "+15550100", JSVal.str "hello", JSVal.undef⟩
        (SendOutcome.success (JSVal.str "SM1")) StorageOutcome.ok "2020" "out_1").2 ≠ [] ∧
    sendHandler ⟨JSVal.str "AC1", JSVal.str "tok", JSVal.str "+19999999999"⟩
        ⟨JSVal.str "  ", JSVal.str "hello", JSVal.undef⟩
        (SendOutcome.success (JSVal.str "SM1")) StorageOutcome.ok "2020" "out_1" =
      (SendResult.validationErr "Missing \x27to\x27", []) :=
  ⟨(c4_send_atomicity _ _ _ _ "2020" "out_1").1.mpr
      ⟨by decide, by decide, by decide, rfl, rfl⟩,
   (c4_send_atomicity _ _ _ _ "2020" "out_1").2.1 (by decide)⟩

/-- The bounded buffer never holds more than `cap` records after an insert. -/
theorem boundedInsert_length_le (cap : Nat) (db : Store) (msg : Message) :
    (boundedInsert cap db msg).length ≤ cap := by
  unfold boundedInsert
  simp only [List.length_drop]
  omega

/-- Filling the bounded buffer with records of pairwise distinct ids keeps
the suffix of the insertion sequence that fits the capacity. -/
theorem boundedFill_eq_drop (cap : Nat) (msgs : List Message) :
    ∀ db : Store, db.length ≤ cap →
      (db ++ msgs).Pairwise (fun a b => a.id ≠ b.id) →
      boundedFill cap db msgs = (db ++ msgs).drop (db.length + msgs.length - cap) := by
  induction msgs with
  | nil =>
    intro db hlen _
    have h0 : List.length db - cap = 0 := by omega
    simp [boundedFill, h0]
  | cons m ms ih =>
    intro db hlen hids
    have hsep : ∀ a ∈ db, a.id ≠ m.id := by
      have h1 := (List.pairwise_append.mp hids).2.2
      intro a ha
      exact h1 a ha m (List.mem_cons_self m ms)
    have hfilter : db.filter (fun r => r.id != m.id) = db :=
      List.filter_eq_self.mpr (fun a ha => by simpa using hsep a ha)
    have hbi : boundedInsert cap db m = (db ++ [m]).drop (db.length + 1 - cap) := by
      unfold boundedInsert
      rw [hfilter]
      simp [List.length_append]
    have hlen2 : (boundedInsert cap db m).length ≤ cap := boundedInsert_length_le cap db m
    have hlenB : (boundedInsert cap db m).length = db.length + 1 - (db.length + 1 - cap) := by
      rw [hbi]
      simp [List.length_drop, List.length_append]
    have hsub : (boundedInsert cap db m ++ ms).Sublist (db ++ m :: ms) := by
      rw [hbi]
      have hdrop : ((db ++ [m]).drop (db.length + 1 - cap)).Sublist (db ++ [m]) :=
        List.drop_sublist _ _
      have h4 := hdrop.append_right ms
      rwa [List.append_assoc, List.singleton_append] at h4
    have hids2 := hids.sublist hsub
    have hrec := ih (boundedInsert cap db m) hlen2 hids2
    have hstep : boundedFill cap db (m :: ms) = boundedFill cap (boundedInsert cap db m) ms :=
      rfl
    rw [hstep, hrec, hlenB, hbi]
    have happ : ((db ++ [m]) ++ ms).drop (List.length db + 1 - cap) =
        ((db ++ [m]).drop (List.length db + 1 - cap)) ++ ms := by
      rw [List.drop_append_eq_append_drop]
      have h5 : List.length db + 1 - cap - List.length (db ++ [m]) = 0 := by
        simp only [List.length_append, List.length_cons, List.length_nil]
        omega
      rw [h5, List.drop_zero]
    rw [← happ, List.drop_drop, List.append_assoc, List.singleton_append]
    congr 1
    simp only [List.length_cons]
    omega

/-- C7: bounded eviction (spec-modelled; no bounded store exists in the
source).  Filling an empty bounded buffer of capacity `cap` with `cap + 1`
records of pairwise distinct ids leaves exactly the last `cap` records:
the count is `cap`, the single oldest record is absent, and no insert ever
leaves more than `cap` records in the buffer. -/
theorem c7_bounded_eviction (cap : Nat) (m : Message) (rest : List Message)
    (hids : (m :: rest).Pairwise (fun a b => a.id ≠ b.id))
    (hlen : rest.length = cap) :
    boundedFill cap [] (m :: rest) = rest ∧
    (boundedFill cap [] (m :: rest)).length = cap ∧
    m ∉ boundedFill cap [] (m :: rest) ∧
    ∀ (db : Store) (msg : Message), (boundedInsert cap db msg).length ≤ cap := by
  have hfill := boundedFill_eq_drop cap (m :: rest) [] (by simp) (by simpa using hids)
  have hfill2 : boundedFill cap [] (m :: rest) = rest := by
    rw [hfill]
    have hidx : List.length ([] : Store) + (m :: rest).length - cap = 1 := by
      simp only [List.length_nil, List.length_cons, hlen]
      omega
    rw [hidx]
    rfl
  refine ⟨hfill2, ?_, ?_, fun db msg => boundedInsert_length_le cap db msg⟩
  · rw [hfill2, hlen]
  · rw [hfill2]
    intro hmem
    exact ((List.pairwise_cons.mp hids).1 m hmem) rfl

/-- Witness for C7 at capacity 1 with two distinct records. -/
theorem c7_witness :
    boundedFill 1 [] [⟨"a", "+1", "+2", "x", Direction.inbound, "1"⟩,
                      ⟨"b", "+1", "+2", "y", Direction.inbound, "2"⟩] =
      [⟨"b", "+1", "+2", "y", Direction.inbound, "2"⟩] ∧
    (boundedFill 1 [] [⟨"a", "+1", "+2", "x", Direction.inbound, "1"⟩,
                       ⟨"b", "+1", "+2", "y", Direction.inbound, "2"⟩]).length = 1 ∧
    (⟨"a", "+1", "+2", "x", Direction.inbound, "1"⟩ : Message) ∉
      boundedFill 1 [] [⟨"a", "+1", "+2", "x", Direction.inbound, "1"⟩,
                        ⟨"b", "+1", "+2", "y", Direction.inbound, "2"⟩] ∧
    (boundedInsert 1 [] ⟨"a", "+1", "+2", "x", Direction.inbound, "1"⟩).length ≤ 1 := by
  have h := c7_bounded_eviction 1 ⟨"a", "+1", "+2", "x", Direction.inbound, "1"⟩
    [⟨"b", "+1", "+2", "y", Direction.inbound, "2"⟩] (by decide) rfl
  exact ⟨h.1, h.2.1, h.2.2.1, h.2.2.2 [] ⟨"a", "+1", "+2", "x", Direction.inbound, "1"⟩⟩

/-- C8 counterexample: with a declared count of 2 but only `MediaUrl0`
present, the loop pushes the absent indexed field as `undefined`, so the
stored sequence does not contain only the URLs actually supplied. -/
theorem c8_counterexample :
    ¬ (∀ (p : MediaPayload) (now : String),
        ∀ v ∈ (inboundMediaMessage p now).mediaUrls, v ≠ JSVal.undef) := by
  intro h
  exact h ⟨JSVal.str "+1", JSVal.str "pic", JSVal.str "2",
      fun i => if i = 0 then JSVal.str "http://a" else JSVal.undef⟩ "2020"
    JSVal.undef (by decide) rfl

/-- C8 amended: the adapter reads the declared count and each indexed
media field in order, stopping at the declared count, and never crashes
(the handler still acknowledges and stores the record); an absent indexed
field is stored as an `undefined` placeholder, so the stored sequence has
exactly the declared length, with entry `i` being whatever `MediaUrl_i`
held. -/
theorem c8_media_extraction (p : MediaPayload) (now : String) :
    (inboundMediaMessage p now).mediaUrls.length = numMediaOf p ∧
    (∀ i : Nat, i < numMediaOf p →
      (inboundMediaMessage p now).mediaUrls[i]? = some (p.mediaField i)) ∧
    (∀ i : Nat, numMediaOf p ≤ i → (inboundMediaMessage p now).mediaUrls[i]? = none) ∧
    (smsMediaHandler p now).1.status = 200 ∧
    (smsMediaHandler p now).2 = [inboundMediaMessage p now] := by
  refine ⟨?_, ?_, ?_, rfl, rfl⟩
  · simp [inboundMediaMessage, extractMediaUrls]
  · intro i hi
    simp [inboundMediaMessage, extractMediaUrls, List.getElem?_map, List.getElem?_range, hi]
  · intro i hi
    have hle : (inboundMediaMessage p now).mediaUrls.length ≤ i := by
      simpa [inboundMediaMessage, extractMediaUrls] using hi
    simp [List.getElem?_eq_none hle]

/-- Witness for C8 amended at a payload declaring two URLs. -/
theorem c8_witness :
    (inboundMediaMessage ⟨JSVal.str "+1", JSVal.str "pic", JSVal.str "2",
        fun i => if i = 0 then JSVal.str "http://a" else JSVal.undef⟩ "2020").mediaUrls.length =
      numMediaOf ⟨JSVal.str "+1", JSVal.str "pic", JSVal.str "2",
        fun i => if i = 0 then JSVal.str "http://a" else JSVal.undef⟩ ∧
    (inboundMediaMessage ⟨JSVal.str "+1", JSVal.str "pic", JSVal.str "2",
        fun i => if i = 0 then JSVal.str "http://a" else JSVal.undef⟩ "2020").mediaUrls[0]? =
      some ((fun i => if i = 0 then JSVal.str "http://a" else JSVal.undef) 0) ∧
    (inboundMediaMessage ⟨JSVal.str "+1", JSVal.str "pic", JSVal.str "2",
        fun i => if i = 0 then JSVal.str "http://a" else JSVal.undef⟩ "2020").mediaUrls[5]? =
      none := by
  have h := c8_media_extraction ⟨JSVal.str "+1", JSVal.str "pic", JSVal.str "2",
    fun i => if i = 0 then JSVal.str "http://a" else JSVal.undef⟩ "2020"
  exact ⟨h.1, h.2.1 0 (by decide), h.2.2.1 5 (by decide)⟩
